import Mathlib

/-!
Shallow embedding of the NEAR escrow contract
(`src/contracts/near/src/lib.rs`, crate root of the repository).

Modelling conventions:
* `Base64VecU8` (a byte vector) is `List Nat`; `AccountId` and the free-form
  chain/token identifiers are `String`; `U128`, `Balance` and `Timestamp`
  are `Nat` (the contract only adds timestamps far below `2^64`, so no wrap
  is observable on the modelled operations).
* `UnorderedMap` and `LookupMap` are association lists in insertion order:
  `insertA` replaces an existing binding in place (as NEAR's `insert` does,
  keeping the iteration index), `removeA` deletes the binding.
* The host context (`env::block_timestamp`, `env::predecessor_account_id`,
  `env::attached_deposit`) is an explicit `Ctx` record; `Promise::transfer`
  calls are collected in a `List Transfer` output.
* A Rust `assert!`/`expect` panic aborts the whole call with a full state
  revert (NEAR host semantics), so every mutating method returns
  `Except Err (NEAREscrow × List Transfer)`: `.error e` means the call
  aborted and no mutation survives.
* `Sha256::digest` comes from the external `sha2` crate; it is passed in as
  an abstract function `sha256 : List Nat → List Nat`.
-/

/-- HTLC states (`enum HTLCState`). -/
inductive HTLCState where
  | Active
  | Completed
  | Refunded
  | Expired
deriving DecidableEq, Repr

/-- Cross-chain swap order structure (`struct SwapOrder`). -/
structure SwapOrder where
  order_hash : List Nat
  src_maker : String
  src_chain : String
  src_token : String
  src_amount : Nat
  dst_recipient : String
  dst_token : String
  dst_amount : Nat
  hash_lock : List Nat
  timelock : Nat
  state : HTLCState
  created_at : Nat
  resolver : String
deriving DecidableEq, Repr

/-- Contract state (`struct NEAREscrow`). -/
structure NEAREscrow where
  owner : String
  swap_orders : List (List Nat × SwapOrder)
  deposits : List (List Nat × Nat)
  supported_chains : List (String × Bool)
  min_timelock : Nat
  max_timelock : Nat
deriving DecidableEq, Repr

/-- Host context of a single call: block timestamp (ns), predecessor
account id, attached deposit. -/
structure Ctx where
  block_timestamp : Nat
  predecessor : String
  attached_deposit : Nat
deriving DecidableEq, Repr

/-- A requested native transfer: (recipient, amount) of a
`Promise::new(recipient).transfer(amount)`. -/
abbrev Transfer := String × Nat

/-- The panic messages of the contract, one per `assert!`/`expect` site. -/
inductive Err where
  | unsupportedSourceChain   -- "Unsupported source chain"
  | timelockTooShort         -- "Timelock too short"
  | timelockTooLong          -- "Timelock too long"
  | orderAlreadyExists       -- "Order already exists"
  | invalidHashLockLength    -- "Invalid hash lock length"
  | mustAttachDeposit        -- "Must attach deposit"
  | orderNotFound            -- "Order not found"
  | orderNotActive           -- "Order not active"
  | htlcExpired              -- "HTLC expired"
  | invalidSecret            -- "Invalid secret"
  | htlcNotExpired           -- "HTLC not expired"
  | depositNotFound          -- "Deposit not found"
  | onlyOwner                -- "Only owner can call this method"
  | invalidTimelockLimits    -- "Invalid timelock limits"
deriving DecidableEq, Repr

/-- Association-list lookup (first binding wins), modelling map `get`. -/
def lookupA {α β : Type} [DecidableEq α] (m : List (α × β)) (k : α) : Option β :=
  match m with
  | [] => none
  | (k', v) :: rest => if k' = k then some v else lookupA rest k

/-- Association-list insert, modelling map `insert`: replaces an existing
binding in place (preserving iteration order), else appends. -/
def insertA {α β : Type} [DecidableEq α] (m : List (α × β)) (k : α) (v : β) :
    List (α × β) :=
  match m with
  | [] => [(k, v)]
  | (k', v') :: rest => if k' = k then (k, v) :: rest else (k', v') :: insertA rest k v

/-- Association-list removal, modelling map `remove`: deletes the binding
for `k`. -/
def removeA {α β : Type} [DecidableEq α] (m : List (α × β)) (k : α) :
    List (α × β) :=
  match m with
  | [] => []
  | (k', v) :: rest => if k' = k then removeA rest k else (k', v) :: removeA rest k

/-- The values of a map in insertion order, modelling `UnorderedMap::values`. -/
def valuesA {α β : Type} (m : List (α × β)) : List β :=
  m.map Prod.snd

namespace NEAREscrow

/-- `NEAREscrow::new`: fresh contract with empty stores and default
timelock bounds (1 hour / 24 hours, in nanoseconds). -/
def new (owner : String) : NEAREscrow :=
  { owner
    swap_orders := []
    deposits := []
    supported_chains := []
    min_timelock := 3600000000000
    max_timelock := 86400000000000 }

/-- `NEAREscrow::new_with_chains`: `new` followed by inserting `true` for
each listed chain. -/
def new_with_chains (owner : String) (chains : List String) : NEAREscrow :=
  chains.foldl
    (fun c chain => { c with supported_chains := insertA c.supported_chains chain true })
    (new owner)

/-- `create_htlc`: validate the six preconditions in source order, then
store the new `Active` order and its deposit. No transfer occurs. -/
def create_htlc (ctx : Ctx) (c : NEAREscrow)
    (order_hash : List Nat) (src_maker src_chain src_token : String)
    (src_amount : Nat) (dst_recipient dst_token : String)
    (hash_lock : List Nat) (timelock : Nat) :
    Except Err (NEAREscrow × List Transfer) :=
  if ¬ ((lookupA c.supported_chains src_chain).getD false = true) then
    .error .unsupportedSourceChain
  else if ¬ (timelock > ctx.block_timestamp + c.min_timelock) then
    .error .timelockTooShort
  else if ¬ (timelock < ctx.block_timestamp + c.max_timelock) then
    .error .timelockTooLong
  else if (lookupA c.swap_orders order_hash).isSome then
    .error .orderAlreadyExists
  else if ¬ (hash_lock.length = 32) then
    .error .invalidHashLockLength
  else if ¬ (ctx.attached_deposit > 0) then
    .error .mustAttachDeposit
  else
    let deposit_amount := ctx.attached_deposit
    let swap_order : SwapOrder :=
      { order_hash := order_hash
        src_maker := src_maker
        src_chain := src_chain
        src_token := src_token
        src_amount := src_amount
        dst_recipient := dst_recipient
        dst_token := dst_token
        dst_amount := deposit_amount
        hash_lock := hash_lock
        timelock := timelock
        state := .Active
        created_at := ctx.block_timestamp
        resolver := ctx.predecessor }
    .ok ({ c with
            swap_orders := insertA c.swap_orders order_hash swap_order
            deposits := insertA c.deposits order_hash deposit_amount }, [])

/-- `complete_htlc`: reveal the secret; on success mark the order
`Completed`, drop the deposit and transfer it to `dst_recipient`. -/
def complete_htlc (sha256 : List Nat → List Nat) (ctx : Ctx) (c : NEAREscrow)
    (order_hash secret : List Nat) :
    Except Err (NEAREscrow × List Transfer) :=
  match lookupA c.swap_orders order_hash with
  | none => .error .orderNotFound
  | some swap_order =>
    if ¬ (swap_order.state = .Active) then .error .orderNotActive
    else if ¬ (ctx.block_timestamp ≤ swap_order.timelock) then .error .htlcExpired
    else if ¬ (sha256 secret = swap_order.hash_lock) then .error .invalidSecret
    else
      let swap_order' : SwapOrder := { swap_order with state := .Completed }
      let c1 : NEAREscrow :=
        { c with swap_orders := insertA c.swap_orders order_hash swap_order' }
      match lookupA c1.deposits order_hash with
      | none => .error .depositNotFound
      | some amount =>
        -- both the "NEAR" and the FT branch of the source currently
        -- perform the same native transfer to dst_recipient
        .ok ({ c1 with deposits := removeA c1.deposits order_hash },
             if swap_order'.dst_token = "NEAR" then
               [(swap_order'.dst_recipient, amount)]
             else
               [(swap_order'.dst_recipient, amount)])

/-- `refund_htlc`: after the timelock has strictly passed, mark the order
`Refunded`, drop the deposit and transfer it back to the resolver. -/
def refund_htlc (ctx : Ctx) (c : NEAREscrow) (order_hash : List Nat) :
    Except Err (NEAREscrow × List Transfer) :=
  match lookupA c.swap_orders order_hash with
  | none => .error .orderNotFound
  | some swap_order =>
    if ¬ (swap_order.state = .Active) then .error .orderNotActive
    else if ¬ (ctx.block_timestamp > swap_order.timelock) then .error .htlcNotExpired
    else
      let swap_order' : SwapOrder := { swap_order with state := .Refunded }
      let c1 : NEAREscrow :=
        { c with swap_orders := insertA c.swap_orders order_hash swap_order' }
      match lookupA c1.deposits order_hash with
      | none => .error .depositNotFound
      | some amount =>
        .ok ({ c1 with deposits := removeA c1.deposits order_hash },
             [(swap_order'.resolver, amount)])

/-- `get_swap_order`: view. -/
def get_swap_order (c : NEAREscrow) (order_hash : List Nat) : Option SwapOrder :=
  lookupA c.swap_orders order_hash

/-- `is_htlc_active`: view; persisted `Active` and deadline not passed. -/
def is_htlc_active (ctx : Ctx) (c : NEAREscrow) (order_hash : List Nat) : Bool :=
  match lookupA c.swap_orders order_hash with
  | some order => decide (order.state = .Active) && decide (ctx.block_timestamp ≤ order.timelock)
  | none => false

/-- `get_active_orders`: paginate the order values with `skip`/`take`,
then filter to persisted state `Active`. -/
def get_active_orders (c : NEAREscrow) (from_index limit : Option Nat) :
    List SwapOrder :=
  let start := from_index.getD 0
  let lim := limit.getD 10
  ((((valuesA c.swap_orders).drop start).take lim).filter
    (fun order => decide (order.state = .Active)))

/-- `verify_secret`: pure predicate `sha256 secret = hash_lock`. -/
def verify_secret (sha256 : List Nat → List Nat)
    (secret hash_lock : List Nat) : Bool :=
  decide (sha256 secret = hash_lock)

/-- `assert_owner`: predecessor must equal the stored owner. -/
def assert_owner (ctx : Ctx) (c : NEAREscrow) : Except Err Unit :=
  if ctx.predecessor = c.owner then .ok () else .error .onlyOwner

/-- `add_supported_chain` (owner only): set the allowlist flag to `true`. -/
def add_supported_chain (ctx : Ctx) (c : NEAREscrow) (chain : String) :
    Except Err (NEAREscrow × List Transfer) :=
  match assert_owner ctx c with
  | .error e => .error e
  | .ok _ =>
    .ok ({ c with supported_chains := insertA c.supported_chains chain true }, [])

/-- `remove_supported_chain` (owner only): set the allowlist flag to
`false` (the key is not deleted). -/
def remove_supported_chain (ctx : Ctx) (c : NEAREscrow) (chain : String) :
    Except Err (NEAREscrow × List Transfer) :=
  match assert_owner ctx c with
  | .error e => .error e
  | .ok _ =>
    .ok ({ c with supported_chains := insertA c.supported_chains chain false }, [])

/-- `update_timelock_limits` (owner only): requires `min < max`. -/
def update_timelock_limits (ctx : Ctx) (c : NEAREscrow)
    (min_timelock max_timelock : Nat) :
    Except Err (NEAREscrow × List Transfer) :=
  match assert_owner ctx c with
  | .error e => .error e
  | .ok _ =>
    if ¬ (min_timelock < max_timelock) then .error .invalidTimelockLimits
    else .ok ({ c with min_timelock := min_timelock, max_timelock := max_timelock }, [])

/-- `emergency_withdraw` (owner only): transfer `amount` to the owner. -/
def emergency_withdraw (ctx : Ctx) (c : NEAREscrow) (amount : Nat) :
    Except Err (NEAREscrow × List Transfer) :=
  match assert_owner ctx c with
  | .error e => .error e
  | .ok _ => .ok (c, [(c.owner, amount)])

/-- `transfer_ownership` (owner only): replace the stored owner. -/
def transfer_ownership (ctx : Ctx) (c : NEAREscrow) (new_owner : String) :
    Except Err (NEAREscrow × List Transfer) :=
  match assert_owner ctx c with
  | .error e => .error e
  | .ok _ => .ok ({ c with owner := new_owner }, [])

/-- `get_owner`: view. -/
def get_owner (c : NEAREscrow) : String :=
  c.owner

/-- `is_chain_supported`: view. -/
def is_chain_supported (c : NEAREscrow) (chain : String) : Bool :=
  (lookupA c.supported_chains chain).getD false

/-- `get_timelock_limits`: view. -/
def get_timelock_limits (c : NEAREscrow) : Nat × Nat :=
  (c.min_timelock, c.max_timelock)

end NEAREscrow

/-- One successful mutating call of the contract, with an arbitrary host
context (and an arbitrary digest function for `complete_htlc`). -/
inductive Step : NEAREscrow → NEAREscrow → Prop where
  | create (ctx : Ctx) (c c' : NEAREscrow) (oh : List Nat)
      (sm sc st : String) (sa : Nat) (dr dt : String) (hl : List Nat) (tl : Nat)
      (t : List Transfer)
      (h : NEAREscrow.create_htlc ctx c oh sm sc st sa dr dt hl tl = .ok (c', t)) :
      Step c c'
  | complete (sha256 : List Nat → List Nat) (ctx : Ctx) (c c' : NEAREscrow)
      (oh secret : List Nat) (t : List Transfer)
      (h : NEAREscrow.complete_htlc sha256 ctx c oh secret = .ok (c', t)) :
      Step c c'
  | refund (ctx : Ctx) (c c' : NEAREscrow) (oh : List Nat) (t : List Transfer)
      (h : NEAREscrow.refund_htlc ctx c oh = .ok (c', t)) :
      Step c c'
  | addChain (ctx : Ctx) (c c' : NEAREscrow) (chain : String) (t : List Transfer)
      (h : NEAREscrow.add_supported_chain ctx c chain = .ok (c', t)) :
      Step c c'
  | removeChain (ctx : Ctx) (c c' : NEAREscrow) (chain : String) (t : List Transfer)
      (h : NEAREscrow.remove_supported_chain ctx c chain = .ok (c', t)) :
      Step c c'
  | updateLimits (ctx : Ctx) (c c' : NEAREscrow) (mn mx : Nat) (t : List Transfer)
      (h : NEAREscrow.update_timelock_limits ctx c mn mx = .ok (c', t)) :
      Step c c'
  | emergencyWithdraw (ctx : Ctx) (c c' : NEAREscrow) (amount : Nat) (t : List Transfer)
      (h : NEAREscrow.emergency_withdraw ctx c amount = .ok (c', t)) :
      Step c c'
  | transferOwnership (ctx : Ctx) (c c' : NEAREscrow) (newOwner : String)
      (t : List Transfer)
      (h : NEAREscrow.transfer_ownership ctx c newOwner = .ok (c', t)) :
      Step c c'

/-- Reachable contract states: an initial state produced by either
constructor, followed by any sequence of successful calls. -/
inductive Reachable : NEAREscrow → Prop where
  | init (owner : String) : Reachable (NEAREscrow.new owner)
  | initChains (owner : String) (chains : List String) :
      Reachable (NEAREscrow.new_with_chains owner chains)
  | step (c c' : NEAREscrow) (hr : Reachable c) (hs : Step c c') : Reachable c'

/-! ### Association-list lemmas -/

theorem lookupA_insertA_self {α β : Type} [DecidableEq α]
    (m : List (α × β)) (k : α) (v : β) :
    lookupA (insertA m k v) k = some v := by
  induction m with
  | nil => simp [insertA, lookupA]
  | cons p rest ih =>
    by_cases h : p.1 = k
    · simp [insertA, lookupA, h]
    · simp [insertA, lookupA, h, ih]

theorem lookupA_insertA_ne {α β : Type} [DecidableEq α]
    (m : List (α × β)) (k k' : α) (v : β) (hne : k ≠ k') :
    lookupA (insertA m k v) k' = lookupA m k' := by
  induction m with
  | nil => simp [insertA, lookupA, hne]
  | cons p rest ih =>
    by_cases h : p.1 = k
    · subst h
      simp [insertA, lookupA, hne]
    · simp [insertA, lookupA, h, ih]

theorem lookupA_removeA_self {α β : Type} [DecidableEq α]
    (m : List (α × β)) (k : α) :
    lookupA (removeA m k) k = none := by
  induction m with
  | nil => simp [removeA, lookupA]
  | cons p rest ih =>
    by_cases h : p.1 = k
    · simpa [removeA, lookupA, h] using ih
    · simpa [removeA, lookupA, h] using ih

theorem lookupA_removeA_ne {α β : Type} [DecidableEq α]
    (m : List (α × β)) (k k' : α) (hne : k ≠ k') :
    lookupA (removeA m k) k' = lookupA m k' := by
  induction m with
  | nil => simp [removeA, lookupA]
  | cons p rest ih =>
    by_cases h : p.1 = k
    · have h' : ¬ p.1 = k' := fun hc => hne (h.symm.trans hc)
      simp [removeA, lookupA, h, h', hne, ih]
    · by_cases h2 : p.1 = k'
      · have h3 : ¬ k' = k := fun hc => h (h2.trans hc)
        simp [removeA, lookupA, h, h2, h3]
      · simp [removeA, lookupA, h, h2, ih]

theorem mem_insertA {α β : Type} [DecidableEq α]
    {m : List (α × β)} {k : α} {v : β} {p : α × β}
    (hp : p ∈ insertA m k v) : p ∈ m ∨ p = (k, v) := by
  induction m with
  | nil =>
    simp [insertA] at hp
    exact Or.inr hp
  | cons q rest ih =>
    by_cases h : q.1 = k
    · simp [insertA, h] at hp
      rcases hp with hp | hp
      · exact Or.inr hp
      · exact Or.inl (List.mem_cons_of_mem _ hp)
    · simp [insertA, h] at hp
      rcases hp with hp | hp
      · exact Or.inl (by simp [hp])
      · rcases ih hp with h2 | h2
        · exact Or.inl (List.mem_cons_of_mem _ h2)
        · exact Or.inr h2

/-! ### Facts about the constructors -/

theorem new_with_chains_stores (owner : String) (chains : List String) :
    (NEAREscrow.new_with_chains owner chains).swap_orders = [] ∧
    (NEAREscrow.new_with_chains owner chains).deposits = [] := by
  suffices h : ∀ (c : NEAREscrow),
      (chains.foldl
        (fun c chain => { c with supported_chains := insertA c.supported_chains chain true })
        c).swap_orders = c.swap_orders ∧
      (chains.foldl
        (fun c chain => { c with supported_chains := insertA c.supported_chains chain true })
        c).deposits = c.deposits by
    have := h (NEAREscrow.new owner)
    simpa [NEAREscrow.new_with_chains, NEAREscrow.new] using this
  induction chains with
  | nil => intro c; simp
  | cons ch rest ih =>
    intro c
    simpa using ih { c with supported_chains := insertA c.supported_chains ch true }

/-! ### Inversion lemmas for successful calls -/

theorem create_htlc_ok {ctx : Ctx} {c : NEAREscrow} {oh : List Nat}
    {sm sc st : String} {sa : Nat} {dr dt : String} {hl : List Nat} {tl : Nat}
    {c' : NEAREscrow} {t : List Transfer}
    (h : NEAREscrow.create_htlc ctx c oh sm sc st sa dr dt hl tl = .ok (c', t)) :
    (lookupA c.supported_chains sc).getD false = true ∧
    ctx.block_timestamp + c.min_timelock < tl ∧
    tl < ctx.block_timestamp + c.max_timelock ∧
    lookupA c.swap_orders oh = none ∧
    hl.length = 32 ∧
    0 < ctx.attached_deposit ∧
    c' = { c with
            swap_orders := insertA c.swap_orders oh
              { order_hash := oh, src_maker := sm, src_chain := sc, src_token := st
                src_amount := sa, dst_recipient := dr, dst_token := dt
                dst_amount := ctx.attached_deposit, hash_lock := hl, timelock := tl
                state := .Active, created_at := ctx.block_timestamp
                resolver := ctx.predecessor }
            deposits := insertA c.deposits oh ctx.attached_deposit } ∧
    t = [] := by
  unfold NEAREscrow.create_htlc at h
  split_ifs at h with h1 h2 h3 h4 h5 h6
  simp only [Except.ok.injEq, Prod.mk.injEq] at h
  refine ⟨by simpa using h1, by simpa using h2, by simpa using h3,
    Option.not_isSome_iff_eq_none.mp h4, by simpa using h5, by simpa using h6,
    h.1.symm, h.2.symm⟩

theorem complete_htlc_ok {sha256 : List Nat → List Nat} {ctx : Ctx}
    {c : NEAREscrow} {oh secret : List Nat} {c' : NEAREscrow} {t : List Transfer}
    (h : NEAREscrow.complete_htlc sha256 ctx c oh secret = .ok (c', t)) :
    ∃ o amount, lookupA c.swap_orders oh = some o ∧
      o.state = .Active ∧
      ctx.block_timestamp ≤ o.timelock ∧
      sha256 secret = o.hash_lock ∧
      lookupA c.deposits oh = some amount ∧
      c' = { c with
              swap_orders := insertA c.swap_orders oh { o with state := .Completed }
              deposits := removeA c.deposits oh } ∧
      t = [(o.dst_recipient, amount)] := by
  unfold NEAREscrow.complete_htlc at h
  cases ho : lookupA c.swap_orders oh with
  | none => rw [ho] at h; exact absurd h (by simp)
  | some o =>
    rw [ho] at h
    dsimp only at h
    split_ifs at h with h1 h2 h3 h4
    all_goals
      cases ha : lookupA c.deposits oh with
      | none => rw [ha] at h; exact absurd h (by simp)
      | some amount =>
        rw [ha] at h
        dsimp only at h
        simp only [Except.ok.injEq, Prod.mk.injEq] at h
        exact ⟨o, amount, rfl, h1, h2, h3, rfl, h.1.symm, h.2.symm⟩

theorem refund_htlc_ok {ctx : Ctx} {c : NEAREscrow} {oh : List Nat}
    {c' : NEAREscrow} {t : List Transfer}
    (h : NEAREscrow.refund_htlc ctx c oh = .ok (c', t)) :
    ∃ o amount, lookupA c.swap_orders oh = some o ∧
      o.state = .Active ∧
      o.timelock < ctx.block_timestamp ∧
      lookupA c.deposits oh = some amount ∧
      c' = { c with
              swap_orders := insertA c.swap_orders oh { o with state := .Refunded }
              deposits := removeA c.deposits oh } ∧
      t = [(o.resolver, amount)] := by
  unfold NEAREscrow.refund_htlc at h
  cases ho : lookupA c.swap_orders oh with
  | none => rw [ho] at h; exact absurd h (by simp)
  | some o =>
    rw [ho] at h
    dsimp only at h
    split_ifs at h with h1 h2
    cases ha : lookupA c.deposits oh with
    | none => rw [ha] at h; exact absurd h (by simp)
    | some amount =>
      rw [ha] at h
      dsimp only at h
      simp only [Except.ok.injEq, Prod.mk.injEq] at h
      exact ⟨o, amount, rfl, h1, h2, rfl, h.1.symm, h.2.symm⟩

theorem add_supported_chain_ok {ctx : Ctx} {c c' : NEAREscrow} {chain : String}
    {t : List Transfer}
    (h : NEAREscrow.add_supported_chain ctx c chain = .ok (c', t)) :
    ctx.predecessor = c.owner ∧
    c' = { c with supported_chains := insertA c.supported_chains chain true } ∧
    t = [] := by
  unfold NEAREscrow.add_supported_chain NEAREscrow.assert_owner at h
  split_ifs at h with h1
  dsimp only at h
  simp only [Except.ok.injEq, Prod.mk.injEq] at h
  exact ⟨h1, h.1.symm, h.2.symm⟩

theorem remove_supported_chain_ok {ctx : Ctx} {c c' : NEAREscrow} {chain : String}
    {t : List Transfer}
    (h : NEAREscrow.remove_supported_chain ctx c chain = .ok (c', t)) :
    ctx.predecessor = c.owner ∧
    c' = { c with supported_chains := insertA c.supported_chains chain false } ∧
    t = [] := by
  unfold NEAREscrow.remove_supported_chain NEAREscrow.assert_owner at h
  split_ifs at h with h1
  dsimp only at h
  simp only [Except.ok.injEq, Prod.mk.injEq] at h
  exact ⟨h1, h.1.symm, h.2.symm⟩

theorem update_timelock_limits_ok {ctx : Ctx} {c c' : NEAREscrow} {mn mx : Nat}
    {t : List Transfer}
    (h : NEAREscrow.update_timelock_limits ctx c mn mx = .ok (c', t)) :
    ctx.predecessor = c.owner ∧ mn < mx ∧
    c' = { c with min_timelock := mn, max_timelock := mx } ∧
    t = [] := by
  unfold NEAREscrow.update_timelock_limits NEAREscrow.assert_owner at h
  split_ifs at h with h1 h2
  dsimp only at h
  simp only [Except.ok.injEq, Prod.mk.injEq] at h
  exact ⟨h1, h2, h.1.symm, h.2.symm⟩

theorem emergency_withdraw_ok {ctx : Ctx} {c c' : NEAREscrow} {amount : Nat}
    {t : List Transfer}
    (h : NEAREscrow.emergency_withdraw ctx c amount = .ok (c', t)) :
    ctx.predecessor = c.owner ∧ c' = c ∧ t = [(c.owner, amount)] := by
  unfold NEAREscrow.emergency_withdraw NEAREscrow.assert_owner at h
  split_ifs at h with h1
  dsimp only at h
  simp only [Except.ok.injEq, Prod.mk.injEq] at h
  exact ⟨h1, h.1.symm, h.2.symm⟩

theorem transfer_ownership_ok {ctx : Ctx} {c c' : NEAREscrow} {newOwner : String}
    {t : List Transfer}
    (h : NEAREscrow.transfer_ownership ctx c newOwner = .ok (c', t)) :
    ctx.predecessor = c.owner ∧ c' = { c with owner := newOwner } ∧ t = [] := by
  unfold NEAREscrow.transfer_ownership NEAREscrow.assert_owner at h
  split_ifs at h with h1
  dsimp only at h
  simp only [Except.ok.injEq, Prod.mk.injEq] at h
  exact ⟨h1, h.1.symm, h.2.symm⟩

/-! ### Reachable-state invariants -/

/-- No stored order ever has persisted state `Expired`. -/
def NoExpired (c : NEAREscrow) : Prop :=
  ∀ p ∈ c.swap_orders, p.2.state ≠ HTLCState.Expired

/-- A deposit entry exists for a key iff that key holds an `Active` order. -/
def DepositIffActive (c : NEAREscrow) : Prop :=
  ∀ k : List Nat, (lookupA c.deposits k).isSome = true ↔
    ∃ o, lookupA c.swap_orders k = some o ∧ o.state = HTLCState.Active

theorem step_preserves_noExpired {c c' : NEAREscrow}
    (hs : Step c c') (hinv : NoExpired c) : NoExpired c' := by
  cases hs with
  | create ctx c c' oh sm sc st sa dr dt hl tl t h =>
    obtain ⟨-, -, -, -, -, -, hc', -⟩ := create_htlc_ok h
    subst hc'
    intro p hp
    rcases mem_insertA hp with hp | hp
    · exact hinv p hp
    · subst hp; simp
  | complete sha256 ctx c c' oh secret t h =>
    obtain ⟨o, amount, ho, hact, hts, hsec, ha, hc', ht⟩ := complete_htlc_ok h
    subst hc'
    intro p hp
    rcases mem_insertA hp with hp | hp
    · exact hinv p hp
    · subst hp; simp
  | refund ctx c c' oh t h =>
    obtain ⟨o, amount, ho, hact, hts, ha, hc', ht⟩ := refund_htlc_ok h
    subst hc'
    intro p hp
    rcases mem_insertA hp with hp | hp
    · exact hinv p hp
    · subst hp; simp
  | addChain ctx c c' chain t h =>
    obtain ⟨-, hc', -⟩ := add_supported_chain_ok h
    subst hc'; exact hinv
  | removeChain ctx c c' chain t h =>
    obtain ⟨-, hc', -⟩ := remove_supported_chain_ok h
    subst hc'; exact hinv
  | updateLimits ctx c c' mn mx t h =>
    obtain ⟨-, -, hc', -⟩ := update_timelock_limits_ok h
    subst hc'; exact hinv
  | emergencyWithdraw ctx c c' amount t h =>
    obtain ⟨-, hc', -⟩ := emergency_withdraw_ok h
    subst hc'; exact hinv
  | transferOwnership ctx c c' newOwner t h =>
    obtain ⟨-, hc', -⟩ := transfer_ownership_ok h
    subst hc'; exact hinv

theorem step_preserves_depositIffActive {c c' : NEAREscrow}
    (hs : Step c c') (hinv : DepositIffActive c) : DepositIffActive c' := by
  cases hs with
  | create ctx c c' oh sm sc st sa dr dt hl tl t h =>
    obtain ⟨-, -, -, hnone, -, -, hc', -⟩ := create_htlc_ok h
    subst hc'
    intro k
    by_cases hk : oh = k
    · subst hk
      simp [lookupA_insertA_self]
    · simp only [lookupA_insertA_ne _ _ _ _ hk]
      exact hinv k
  | complete sha256 ctx c c' oh secret t h =>
    obtain ⟨o, amount, ho, hact, hts, hsec, ha, hc', ht⟩ := complete_htlc_ok h
    subst hc'
    intro k
    by_cases hk : oh = k
    · subst hk
      simp [lookupA_removeA_self, lookupA_insertA_self]
    · simp only [lookupA_removeA_ne _ _ _ hk, lookupA_insertA_ne _ _ _ _ hk]
      exact hinv k
  | refund ctx c c' oh t h =>
    obtain ⟨o, amount, ho, hact, hts, ha, hc', ht⟩ := refund_htlc_ok h
    subst hc'
    intro k
    by_cases hk : oh = k
    · subst hk
      simp [lookupA_removeA_self, lookupA_insertA_self]
    · simp only [lookupA_removeA_ne _ _ _ hk, lookupA_insertA_ne _ _ _ _ hk]
      exact hinv k
  | addChain ctx c c' chain t h =>
    obtain ⟨-, hc', -⟩ := add_supported_chain_ok h
    subst hc'; exact hinv
  | removeChain ctx c c' chain t h =>
    obtain ⟨-, hc', -⟩ := remove_supported_chain_ok h
    subst hc'; exact hinv
  | updateLimits ctx c c' mn mx t h =>
    obtain ⟨-, -, hc', -⟩ := update_timelock_limits_ok h
    subst hc'; exact hinv
  | emergencyWithdraw ctx c c' amount t h =>
    obtain ⟨-, hc', -⟩ := emergency_withdraw_ok h
    subst hc'; exact hinv
  | transferOwnership ctx c c' newOwner t h =>
    obtain ⟨-, hc', -⟩ := transfer_ownership_ok h
    subst hc'; exact hinv

theorem reachable_inv {c : NEAREscrow} (hr : Reachable c) :
    NoExpired c ∧ DepositIffActive c := by
  induction hr with
  | init owner =>
    constructor
    · intro p hp; simp [NEAREscrow.new] at hp
    · intro k; simp [NEAREscrow.new, lookupA]
  | initChains owner chains =>
    obtain ⟨h1, h2⟩ := new_with_chains_stores owner chains
    constructor
    · intro p hp; rw [h1] at hp; simp at hp
    · intro k; rw [h1, h2]; simp [lookupA]
  | step c c' hr hs ih =>
    exact ⟨step_preserves_noExpired hs ih.1, step_preserves_depositIffActive hs ih.2⟩

/-- A stored non-`Active` order makes `complete_htlc` fail with
"Order not active". -/
theorem complete_htlc_not_active {sha256 : List Nat → List Nat} {ctx : Ctx}
    {c : NEAREscrow} {oh secret : List Nat} {o : SwapOrder}
    (ho : lookupA c.swap_orders oh = some o)
    (hs : ¬ o.state = HTLCState.Active) :
    NEAREscrow.complete_htlc sha256 ctx c oh secret = .error .orderNotActive := by
  unfold NEAREscrow.complete_htlc
  rw [ho]
  dsimp only
  rw [if_pos hs]

/-- A stored non-`Active` order makes `refund_htlc` fail with
"Order not active". -/
theorem refund_htlc_not_active {ctx : Ctx}
    {c : NEAREscrow} {oh : List Nat} {o : SwapOrder}
    (ho : lookupA c.swap_orders oh = some o)
    (hs : ¬ o.state = HTLCState.Active) :
    NEAREscrow.refund_htlc ctx c oh = .error .orderNotActive := by
  unfold NEAREscrow.refund_htlc
  rw [ho]
  dsimp only
  rw [if_pos hs]

/-- No successful call changes a stored order that is not `Active`. -/
theorem step_preserves_terminal {c c' : NEAREscrow} {k : List Nat} {o : SwapOrder}
    (hs : Step c c') (ho : lookupA c.swap_orders k = some o)
    (hterm : ¬ o.state = HTLCState.Active) :
    lookupA c'.swap_orders k = some o := by
  cases hs with
  | create ctx c c' oh sm sc st sa dr dt hl tl t h =>
    obtain ⟨-, -, -, hnone, -, -, hc', -⟩ := create_htlc_ok h
    subst hc'
    have hk : oh ≠ k := by
      intro he
      rw [he, ho] at hnone
      exact absurd hnone (by simp)
    show lookupA (insertA c.swap_orders oh _) k = some o
    rw [lookupA_insertA_ne _ _ _ _ hk]
    exact ho
  | complete sha256 ctx c c' oh secret t h =>
    obtain ⟨o2, amount, ho2, hact, -, -, -, hc', -⟩ := complete_htlc_ok h
    subst hc'
    have hk : oh ≠ k := by
      intro he
      rw [he, ho] at ho2
      exact hterm (by injection ho2 with h2; rw [← h2] at hact; exact hact)
    show lookupA (insertA c.swap_orders oh _) k = some o
    rw [lookupA_insertA_ne _ _ _ _ hk]
    exact ho
  | refund ctx c c' oh t h =>
    obtain ⟨o2, amount, ho2, hact, -, -, hc', -⟩ := refund_htlc_ok h
    subst hc'
    have hk : oh ≠ k := by
      intro he
      rw [he, ho] at ho2
      exact hterm (by injection ho2 with h2; rw [← h2] at hact; exact hact)
    show lookupA (insertA c.swap_orders oh _) k = some o
    rw [lookupA_insertA_ne _ _ _ _ hk]
    exact ho
  | addChain ctx c c' chain t h =>
    obtain ⟨-, hc', -⟩ := add_supported_chain_ok h
    subst hc'; exact ho
  | removeChain ctx c c' chain t h =>
    obtain ⟨-, hc', -⟩ := remove_supported_chain_ok h
    subst hc'; exact ho
  | updateLimits ctx c c' mn mx t h =>
    obtain ⟨-, -, hc', -⟩ := update_timelock_limits_ok h
    subst hc'; exact ho
  | emergencyWithdraw ctx c c' amount t h =>
    obtain ⟨-, hc', -⟩ := emergency_withdraw_ok h
    subst hc'; exact ho
  | transferOwnership ctx c c' newOwner t h =>
    obtain ⟨-, hc', -⟩ := transfer_ownership_ok h
    subst hc'; exact ho

/-! ### Helper lemmas describing each outcome of complete/refund -/

theorem complete_htlc_not_found {sha256 : List Nat → List Nat} {ctx : Ctx}
    {c : NEAREscrow} {oh secret : List Nat}
    (hnone : lookupA c.swap_orders oh = none) :
    NEAREscrow.complete_htlc sha256 ctx c oh secret = .error .orderNotFound := by
  unfold NEAREscrow.complete_htlc
  rw [hnone]

theorem complete_htlc_late {sha256 : List Nat → List Nat} {ctx : Ctx}
    {c : NEAREscrow} {oh secret : List Nat} {o : SwapOrder}
    (ho : lookupA c.swap_orders oh = some o)
    (hact : o.state = HTLCState.Active)
    (hlate : ¬ ctx.block_timestamp ≤ o.timelock) :
    NEAREscrow.complete_htlc sha256 ctx c oh secret = .error .htlcExpired := by
  unfold NEAREscrow.complete_htlc
  rw [ho]
  dsimp only
  rw [if_neg (not_not_intro hact), if_pos hlate]

theorem complete_htlc_bad_secret {sha256 : List Nat → List Nat} {ctx : Ctx}
    {c : NEAREscrow} {oh secret : List Nat} {o : SwapOrder}
    (ho : lookupA c.swap_orders oh = some o)
    (hact : o.state = HTLCState.Active)
    (hts : ctx.block_timestamp ≤ o.timelock)
    (hsec : ¬ sha256 secret = o.hash_lock) :
    NEAREscrow.complete_htlc sha256 ctx c oh secret = .error .invalidSecret := by
  unfold NEAREscrow.complete_htlc
  rw [ho]
  dsimp only
  rw [if_neg (not_not_intro hact), if_neg (not_not_intro hts), if_pos hsec]

theorem complete_htlc_success {sha256 : List Nat → List Nat} {ctx : Ctx}
    {c : NEAREscrow} {oh secret : List Nat} {o : SwapOrder} {amount : Nat}
    (ho : lookupA c.swap_orders oh = some o)
    (hact : o.state = HTLCState.Active)
    (hts : ctx.block_timestamp ≤ o.timelock)
    (hsec : sha256 secret = o.hash_lock)
    (ha : lookupA c.deposits oh = some amount) :
    NEAREscrow.complete_htlc sha256 ctx c oh secret =
      .ok ({ c with
              swap_orders := insertA c.swap_orders oh { o with state := HTLCState.Completed }
              deposits := removeA c.deposits oh },
           [(o.dst_recipient, amount)]) := by
  unfold NEAREscrow.complete_htlc
  rw [ho]
  dsimp only
  rw [if_neg (not_not_intro hact), if_neg (not_not_intro hts), if_neg (not_not_intro hsec)]
  rw [ha]
  dsimp only
  rw [ite_self]

theorem refund_htlc_not_found {ctx : Ctx} {c : NEAREscrow} {oh : List Nat}
    (hnone : lookupA c.swap_orders oh = none) :
    NEAREscrow.refund_htlc ctx c oh = .error .orderNotFound := by
  unfold NEAREscrow.refund_htlc
  rw [hnone]

theorem refund_htlc_early {ctx : Ctx} {c : NEAREscrow} {oh : List Nat} {o : SwapOrder}
    (ho : lookupA c.swap_orders oh = some o)
    (hact : o.state = HTLCState.Active)
    (hearly : ¬ o.timelock < ctx.block_timestamp) :
    NEAREscrow.refund_htlc ctx c oh = .error .htlcNotExpired := by
  unfold NEAREscrow.refund_htlc
  rw [ho]
  dsimp only
  rw [if_neg (not_not_intro hact), if_pos hearly]

theorem refund_htlc_success {ctx : Ctx} {c : NEAREscrow} {oh : List Nat}
    {o : SwapOrder} {amount : Nat}
    (ho : lookupA c.swap_orders oh = some o)
    (hact : o.state = HTLCState.Active)
    (hts : o.timelock < ctx.block_timestamp)
    (ha : lookupA c.deposits oh = some amount) :
    NEAREscrow.refund_htlc ctx c oh =
      .ok ({ c with
              swap_orders := insertA c.swap_orders oh { o with state := HTLCState.Refunded }
              deposits := removeA c.deposits oh },
           [(o.resolver, amount)]) := by
  unfold NEAREscrow.refund_htlc
  rw [ho]
  dsimp only
  rw [if_neg (not_not_intro hact), if_neg (not_not_intro hts)]
  rw [ha]


/-! ### Concrete fixtures used by the witnesses -/

/-- A 32-byte hash-lock value. -/
def sampleHashLock : List Nat := List.replicate 32 0

/-- A concrete digest function whose value on every input is
`sampleHashLock` (stands in for the external SHA-256). -/
def sampleSha : List Nat → List Nat := fun _ => sampleHashLock

/-- A concrete digest function that never matches `sampleHashLock`. -/
def sampleShaBad : List Nat → List Nat := fun _ => [1]

/-- A concrete `Active` order with timelock `100`. -/
def sampleOrder : SwapOrder :=
  { order_hash := [1]
    src_maker := "maker.eth"
    src_chain := "ethereum"
    src_token := "ETH"
    src_amount := 7
    dst_recipient := "bob.near"
    dst_token := "NEAR"
    dst_amount := 5
    hash_lock := sampleHashLock
    timelock := 100
    state := .Active
    created_at := 10
    resolver := "res.near" }

/-- A concrete contract state holding `sampleOrder` and its deposit. -/
def sampleEscrow : NEAREscrow :=
  { owner := "alice.near"
    swap_orders := [([1], sampleOrder)]
    deposits := [([1], 5)]
    supported_chains := [("ethereum", true)]
    min_timelock := 10
    max_timelock := 1000 }

/-! ### C1 -/

/-- C1: for a stored order, `complete_htlc(order_hash, secret)` succeeds iff
the order is `Active`, the current time is at most the timelock, and the
digest of the secret equals the hash lock byte-for-byte; on success it marks
the order `Completed`, removes the deposit entry, and transfers the deposit
amount to `dst_recipient`; on any failing conjunct (or a missing order) it
aborts with the corresponding error and, by the abort semantics of the
`Except` embedding, no mutation and no transfer occur. The hypothesis
`hdep` (a deposit entry backs every `Active` order) is the reachable-state
invariant established separately. -/
theorem C1_complete_htlc_iff
    (sha256 : List Nat → List Nat) (ctx : Ctx) (c : NEAREscrow)
    (oh secret : List Nat) (o : SwapOrder)
    (ho : lookupA c.swap_orders oh = some o)
    (hdep : o.state = HTLCState.Active → (lookupA c.deposits oh).isSome = true) :
    ((∃ r, NEAREscrow.complete_htlc sha256 ctx c oh secret = .ok r) ↔
      (o.state = HTLCState.Active ∧ ctx.block_timestamp ≤ o.timelock ∧
        sha256 secret = o.hash_lock)) ∧
    (∀ amount, o.state = HTLCState.Active → ctx.block_timestamp ≤ o.timelock →
      sha256 secret = o.hash_lock → lookupA c.deposits oh = some amount →
      NEAREscrow.complete_htlc sha256 ctx c oh secret =
        .ok ({ c with
                swap_orders := insertA c.swap_orders oh { o with state := HTLCState.Completed }
                deposits := removeA c.deposits oh },
             [(o.dst_recipient, amount)])) ∧
    (∀ k, lookupA c.swap_orders k = none →
      NEAREscrow.complete_htlc sha256 ctx c k secret = .error .orderNotFound) ∧
    (¬ o.state = HTLCState.Active →
      NEAREscrow.complete_htlc sha256 ctx c oh secret = .error .orderNotActive) ∧
    (o.state = HTLCState.Active → ¬ ctx.block_timestamp ≤ o.timelock →
      NEAREscrow.complete_htlc sha256 ctx c oh secret = .error .htlcExpired) ∧
    (o.state = HTLCState.Active → ctx.block_timestamp ≤ o.timelock →
      ¬ sha256 secret = o.hash_lock →
      NEAREscrow.complete_htlc sha256 ctx c oh secret = .error .invalidSecret) := by
  refine ⟨⟨?_, ?_⟩, ?_, ?_, ?_, ?_, ?_⟩
  · rintro ⟨⟨c2, t⟩, hr⟩
    obtain ⟨o2, amount, ho2, hact, hts, hsec, -⟩ := complete_htlc_ok hr
    rw [ho] at ho2
    injection ho2 with ho2
    subst ho2
    exact ⟨hact, hts, hsec⟩
  · rintro ⟨hact, hts, hsec⟩
    obtain ⟨amount, ha⟩ := Option.isSome_iff_exists.mp (hdep hact)
    exact ⟨_, complete_htlc_success ho hact hts hsec ha⟩
  · intro amount hact hts hsec ha
    exact complete_htlc_success ho hact hts hsec ha
  · intro k hk
    exact complete_htlc_not_found hk
  · intro hact
    exact complete_htlc_not_active ho hact
  · intro hact hlate
    exact complete_htlc_late ho hact hlate
  · intro hact hts hsec
    exact complete_htlc_bad_secret ho hact hts hsec

/-- Witness for C1: on the concrete `sampleEscrow`, completing order `[1]`
at time `50` with a matching secret digest succeeds. -/
theorem C1_complete_htlc_iff_witness :
    ∃ r, NEAREscrow.complete_htlc sampleSha ⟨50, "caller.near", 0⟩
      sampleEscrow [1] [9] = .ok r :=
  (C1_complete_htlc_iff sampleSha ⟨50, "caller.near", 0⟩ sampleEscrow
      [1] [9] sampleOrder (by decide) (fun _ => by decide)).1.mpr
    ⟨by decide, by decide, by decide⟩

/-! ### C2 -/

/-- C2: for a stored order, `refund_htlc(order_hash)` succeeds iff the
order is `Active` and the current time is strictly greater than the
timelock; on success it marks the order `Refunded`, removes the deposit
entry, and transfers the held amount to the order's `resolver`; otherwise
it aborts with the corresponding error and no mutation or transfer occurs.
`hdep` is the reachable-state deposit invariant as in C1. -/
theorem C2_refund_htlc_iff
    (ctx : Ctx) (c : NEAREscrow) (oh : List Nat) (o : SwapOrder)
    (ho : lookupA c.swap_orders oh = some o)
    (hdep : o.state = HTLCState.Active → (lookupA c.deposits oh).isSome = true) :
    ((∃ r, NEAREscrow.refund_htlc ctx c oh = .ok r) ↔
      (o.state = HTLCState.Active ∧ o.timelock < ctx.block_timestamp)) ∧
    (∀ amount, o.state = HTLCState.Active → o.timelock < ctx.block_timestamp →
      lookupA c.deposits oh = some amount →
      NEAREscrow.refund_htlc ctx c oh =
        .ok ({ c with
                swap_orders := insertA c.swap_orders oh { o with state := HTLCState.Refunded }
                deposits := removeA c.deposits oh },
             [(o.resolver, amount)])) ∧
    (∀ k, lookupA c.swap_orders k = none →
      NEAREscrow.refund_htlc ctx c k = .error .orderNotFound) ∧
    (¬ o.state = HTLCState.Active →
      NEAREscrow.refund_htlc ctx c oh = .error .orderNotActive) ∧
    (o.state = HTLCState.Active → ¬ o.timelock < ctx.block_timestamp →
      NEAREscrow.refund_htlc ctx c oh = .error .htlcNotExpired) := by
  refine ⟨⟨?_, ?_⟩, ?_, ?_, ?_, ?_⟩
  · rintro ⟨⟨c2, t⟩, hr⟩
    obtain ⟨o2, amount, ho2, hact, hts, -⟩ := refund_htlc_ok hr
    rw [ho] at ho2
    injection ho2 with ho2
    subst ho2
    exact ⟨hact, hts⟩
  · rintro ⟨hact, hts⟩
    obtain ⟨amount, ha⟩ := Option.isSome_iff_exists.mp (hdep hact)
    exact ⟨_, refund_htlc_success ho hact hts ha⟩
  · intro amount hact hts ha
    exact refund_htlc_success ho hact hts ha
  · intro k hk
    exact refund_htlc_not_found hk
  · intro hact
    exact refund_htlc_not_active ho hact
  · intro hact hearly
    exact refund_htlc_early ho hact hearly

/-- Witness for C2: on the concrete `sampleEscrow`, refunding order `[1]`
at time `150` (past the timelock `100`) succeeds. -/
theorem C2_refund_htlc_iff_witness :
    ∃ r, NEAREscrow.refund_htlc ⟨150, "caller.near", 0⟩ sampleEscrow [1] = .ok r :=
  (C2_refund_htlc_iff ⟨150, "caller.near", 0⟩ sampleEscrow
      [1] sampleOrder (by decide) (fun _ => by decide)).1.mpr
    ⟨by decide, by decide⟩

/-! ### A nontrivial reachable state: one order created and completed -/

/-- The order stored after the witness `create_htlc` call. -/
def wOrder : SwapOrder :=
  { order_hash := [1]
    src_maker := "maker.eth"
    src_chain := "ethereum"
    src_token := "ETH"
    src_amount := 7
    dst_recipient := "bob.near"
    dst_token := "NEAR"
    dst_amount := 5
    hash_lock := sampleHashLock
    timelock := 4000000000000
    state := .Active
    created_at := 0
    resolver := "res.near" }

/-- State after `new_with_chains` + one successful `create_htlc`. -/
def wEscrow1 : NEAREscrow :=
  { owner := "alice.near"
    swap_orders := [([1], wOrder)]
    deposits := [([1], 5)]
    supported_chains := [("ethereum", true)]
    min_timelock := 3600000000000
    max_timelock := 86400000000000 }

/-- State after additionally completing order `[1]`. -/
def wEscrow2 : NEAREscrow :=
  { wEscrow1 with
      swap_orders := [([1], { wOrder with state := .Completed })]
      deposits := [] }

theorem wEscrow1_reachable : Reachable wEscrow1 :=
  Reachable.step _ _ (Reachable.initChains "alice.near" ["ethereum"])
    (Step.create ⟨0, "res.near", 5⟩ _ _ [1] "maker.eth" "ethereum" "ETH" 7
      "bob.near" "NEAR" sampleHashLock 4000000000000 [] rfl)

theorem wEscrow2_reachable : Reachable wEscrow2 :=
  Reachable.step _ _ wEscrow1_reachable
    (Step.complete sampleSha ⟨1, "x.near", 0⟩ _ _ [1] [2]
      [("bob.near", 5)] rfl)

/-! ### C3 -/

/-- C3: in every reachable state every stored order's persisted state is
`Active`, `Completed` or `Refunded` (never `Expired`), and an order in a
terminal (`Completed`/`Refunded`) state is frozen: `complete_htlc` and
`refund_htlc` on it fail with the "Order not active" error, and no
successful call of any operation changes its stored record. -/
theorem C3_terminal_states (c : NEAREscrow) (hr : Reachable c) :
    (∀ p ∈ c.swap_orders,
      p.2.state = HTLCState.Active ∨ p.2.state = HTLCState.Completed ∨
        p.2.state = HTLCState.Refunded) ∧
    (∀ k o, lookupA c.swap_orders k = some o →
      (o.state = HTLCState.Completed ∨ o.state = HTLCState.Refunded) →
      (∀ sha256 ctx secret,
        NEAREscrow.complete_htlc sha256 ctx c k secret = .error .orderNotActive) ∧
      (∀ ctx, NEAREscrow.refund_htlc ctx c k = .error .orderNotActive) ∧
      (∀ c', Step c c' → lookupA c'.swap_orders k = some o)) := by
  obtain ⟨hne, -⟩ := reachable_inv hr
  constructor
  · intro p hp
    have hx := hne p hp
    cases h : p.2.state
    · exact Or.inl rfl
    · exact Or.inr (Or.inl rfl)
    · exact Or.inr (Or.inr rfl)
    · exact absurd h hx
  · intro k o ho hterm
    have hna : ¬ o.state = HTLCState.Active := by
      rcases hterm with h | h <;> rw [h] <;> intro hc <;> exact absurd hc (by simp)
    exact ⟨fun sha256 ctx secret => complete_htlc_not_active ho hna,
           fun ctx => refund_htlc_not_active ho hna,
           fun c' hs => step_preserves_terminal hs ho hna⟩

/-- Witness for C3: in the reachable state `wEscrow2` the completed order
`[1]` rejects both `complete_htlc` and `refund_htlc` with the
"Order not active" error. -/
theorem C3_terminal_states_witness :
    NEAREscrow.complete_htlc sampleSha ⟨2, "y.near", 0⟩ wEscrow2 [1] [2] =
      .error .orderNotActive ∧
    NEAREscrow.refund_htlc ⟨9999999999999, "y.near", 0⟩ wEscrow2 [1] =
      .error .orderNotActive :=
  ⟨((C3_terminal_states wEscrow2 wEscrow2_reachable).2 [1]
      { wOrder with state := .Completed } rfl (Or.inl rfl)).1 sampleSha _ [2],
   ((C3_terminal_states wEscrow2 wEscrow2_reachable).2 [1]
      { wOrder with state := .Completed } rfl (Or.inl rfl)).2.1 _⟩

/-! ### C4 -/

/-- C4: in every reachable state a deposit entry exists for a key iff an
order with that key exists and is `Active` (create inserts both together;
complete/refund remove the deposit in the same call that moves the order
to a terminal state — those operational facts are the inductive cases of
`step_preserves_depositIffActive`). -/
theorem C4_deposit_iff_active (c : NEAREscrow) (hr : Reachable c) :
    ∀ k : List Nat, (lookupA c.deposits k).isSome = true ↔
      ∃ o, lookupA c.swap_orders k = some o ∧ o.state = HTLCState.Active :=
  (reachable_inv hr).2

/-- Witness for C4: in the reachable state `wEscrow1` the key `[1]` has
both a deposit entry and an `Active` order. -/
theorem C4_deposit_iff_active_witness :
    (lookupA wEscrow1.deposits [1]).isSome = true ↔
      ∃ o, lookupA wEscrow1.swap_orders [1] = some o ∧
        o.state = HTLCState.Active :=
  C4_deposit_iff_active wEscrow1 wEscrow1_reachable [1]

/-! ### C5 -/

/-- Host-level execution of one call: the NEAR runtime reverts every
storage mutation and captures no transfer when the call panics, so on
`.error` the post-state is the pre-state and the transfer list is empty. -/
def run (f : NEAREscrow → Except Err (NEAREscrow × List Transfer))
    (c : NEAREscrow) : NEAREscrow × List Transfer × Option Err :=
  match f c with
  | .ok (c', t) => (c', t, none)
  | .error e => (c, [], some e)

/-- A call is atomic: either it reports no error and all its effects are
exactly the committed result, or it reports an error and the observable
state is unchanged with no transfer issued. -/
def Atomic (f : NEAREscrow → Except Err (NEAREscrow × List Transfer))
    (c : NEAREscrow) : Prop :=
  ((run f c).2.2 = none → f c = .ok ((run f c).1, (run f c).2.1)) ∧
  (∀ e, (run f c).2.2 = some e →
    (run f c).1 = c ∧ (run f c).2.1 = [] ∧ f c = .error e)

theorem atomic_of_run (f : NEAREscrow → Except Err (NEAREscrow × List Transfer))
    (c : NEAREscrow) : Atomic f c := by
  unfold Atomic run
  cases hf : f c with
  | ok r => cases r; simp
  | error e => simp

/-- C5: every operation of the contract is atomic — for each of the eight
mutating entry points, a failing call leaves the stored state exactly as
it was and issues no transfer, while a successful call commits all its
effects; this holds in particular for `complete_htlc`/`refund_htlc` calls
that fail at the deposit lookup after the order mutation was computed
(the `.error` result discards the intermediate state, mirroring the
host-level abort). -/
theorem C5_atomicity (ctx : Ctx) (c : NEAREscrow) (oh secret hl : List Nat)
    (sm sc st : String) (sa : Nat) (dr dt : String) (tl : Nat)
    (sha256 : List Nat → List Nat) (chain : String) (mn mx amount : Nat)
    (newOwner : String) :
    Atomic (fun s => NEAREscrow.create_htlc ctx s oh sm sc st sa dr dt hl tl) c ∧
    Atomic (fun s => NEAREscrow.complete_htlc sha256 ctx s oh secret) c ∧
    Atomic (fun s => NEAREscrow.refund_htlc ctx s oh) c ∧
    Atomic (fun s => NEAREscrow.add_supported_chain ctx s chain) c ∧
    Atomic (fun s => NEAREscrow.remove_supported_chain ctx s chain) c ∧
    Atomic (fun s => NEAREscrow.update_timelock_limits ctx s mn mx) c ∧
    Atomic (fun s => NEAREscrow.emergency_withdraw ctx s amount) c ∧
    Atomic (fun s => NEAREscrow.transfer_ownership ctx s newOwner) c :=
  ⟨atomic_of_run _ c, atomic_of_run _ c, atomic_of_run _ c, atomic_of_run _ c,
   atomic_of_run _ c, atomic_of_run _ c, atomic_of_run _ c, atomic_of_run _ c⟩

/-- Witness for C5: a concrete failing `complete_htlc` (wrong secret
digest) leaves `sampleEscrow` unchanged and issues no transfer. -/
theorem C5_atomicity_witness :
    (run (fun s => NEAREscrow.complete_htlc sampleShaBad ⟨50, "z.near", 0⟩ s [1] [9])
      sampleEscrow).1 = sampleEscrow ∧
    (run (fun s => NEAREscrow.complete_htlc sampleShaBad ⟨50, "z.near", 0⟩ s [1] [9])
      sampleEscrow).2.1 = [] := by
  have h := (C5_atomicity ⟨50, "z.near", 0⟩ sampleEscrow [1] [9] sampleHashLock
    "m" "ethereum" "ETH" 7 "bob.near" "NEAR" 500 sampleShaBad "ethereum" 1 2 3
    "n.near").2.1.2 Err.invalidSecret (by decide)
  exact ⟨h.1, h.2.1⟩

/-! ### C6 -/

/-- C6: when all six `create_htlc` preconditions hold (source chain
allowed, timelock strictly inside the window relative to now, no existing
order, 32-byte hash lock, positive attached deposit), the call succeeds
with no transfer, stores the order with `state = Active`,
`dst_amount` = attached deposit, `resolver` = caller and
`created_at` = now, and inserts a deposit entry equal to the attached
deposit. -/
theorem C6_create_htlc_success
    (ctx : Ctx) (c : NEAREscrow) (oh : List Nat) (sm sc st : String) (sa : Nat)
    (dr dt : String) (hl : List Nat) (tl : Nat)
    (h1 : (lookupA c.supported_chains sc).getD false = true)
    (h2 : ctx.block_timestamp + c.min_timelock < tl)
    (h3 : tl < ctx.block_timestamp + c.max_timelock)
    (h4 : lookupA c.swap_orders oh = none)
    (h5 : hl.length = 32)
    (h6 : 0 < ctx.attached_deposit) :
    ∃ c', NEAREscrow.create_htlc ctx c oh sm sc st sa dr dt hl tl = .ok (c', []) ∧
      lookupA c'.swap_orders oh = some
        { order_hash := oh, src_maker := sm, src_chain := sc, src_token := st
          src_amount := sa, dst_recipient := dr, dst_token := dt
          dst_amount := ctx.attached_deposit, hash_lock := hl, timelock := tl
          state := HTLCState.Active, created_at := ctx.block_timestamp
          resolver := ctx.predecessor } ∧
      lookupA c'.deposits oh = some ctx.attached_deposit := by
  refine ⟨{ c with
      swap_orders := insertA c.swap_orders oh
        { order_hash := oh, src_maker := sm, src_chain := sc, src_token := st
          src_amount := sa, dst_recipient := dr, dst_token := dt
          dst_amount := ctx.attached_deposit, hash_lock := hl, timelock := tl
          state := HTLCState.Active, created_at := ctx.block_timestamp
          resolver := ctx.predecessor }
      deposits := insertA c.deposits oh ctx.attached_deposit },
    ?_, lookupA_insertA_self _ _ _, lookupA_insertA_self _ _ _⟩
  unfold NEAREscrow.create_htlc
  rw [if_neg (not_not_intro h1), if_neg (not_not_intro h2),
    if_neg (not_not_intro h3), if_neg (by rw [h4]; simp),
    if_neg (not_not_intro h5), if_neg (not_not_intro h6)]

/-- Witness for C6: a concrete valid `create_htlc` on `sampleEscrow`. -/
theorem C6_create_htlc_success_witness :
    ∃ c', NEAREscrow.create_htlc ⟨0, "res.near", 5⟩ sampleEscrow [2] "m.eth"
        "ethereum" "ETH" 7 "bob.near" "NEAR" sampleHashLock 500 = .ok (c', []) ∧
      lookupA c'.swap_orders [2] = some
        { order_hash := [2], src_maker := "m.eth", src_chain := "ethereum"
          src_token := "ETH", src_amount := 7, dst_recipient := "bob.near"
          dst_token := "NEAR", dst_amount := 5, hash_lock := sampleHashLock
          timelock := 500, state := HTLCState.Active, created_at := 0
          resolver := "res.near" } ∧
      lookupA c'.deposits [2] = some 5 :=
  C6_create_htlc_success ⟨0, "res.near", 5⟩ sampleEscrow [2] "m.eth" "ethereum"
    "ETH" 7 "bob.near" "NEAR" sampleHashLock 500 (by decide) (by decide)
    (by decide) (by decide) (by decide) (by decide)

/-! ### C7 -/

/-- Modelled from the claim's words (spec §8 / §4.4 reading): the result
would start after the first `skip` *matching* (`Active`) entries, i.e.
filter to `Active` first, then apply skip and take among the matches. -/
def get_active_orders_claimed (c : NEAREscrow) (from_index limit : Option Nat) :
    List SwapOrder :=
  let start := from_index.getD 0
  let lim := limit.getD 10
  ((((valuesA c.swap_orders).filter
      (fun order => decide (order.state = HTLCState.Active))).drop start).take lim)

/-- A `Completed` order stored before an `Active` one, to separate the two
pagination readings. -/
def cexOrderCompleted : SwapOrder := { sampleOrder with order_hash := [1], state := .Completed }

/-- The `Active` order stored second in `cexEscrow`. -/
def cexOrderActive : SwapOrder := { sampleOrder with order_hash := [2] }

/-- Contract whose store holds a `Completed` order followed by an `Active`
one. -/
def cexEscrow : NEAREscrow :=
  { sampleEscrow with
      swap_orders := [([1], cexOrderCompleted), ([2], cexOrderActive)]
      deposits := [([2], 5)] }

/-- Counterexample to C7 as stated: with `skip = 1`, `take = 1` on a store
whose first order is `Completed` and whose second is `Active`, the code
returns the `Active` order (skip counted the `Completed` entry), while
"starting after the first `skip` matching (Active) entries" would return
nothing. -/
theorem C7_counterexample :
    NEAREscrow.get_active_orders cexEscrow (some 1) (some 1) = [cexOrderActive] ∧
    get_active_orders_claimed cexEscrow (some 1) (some 1) = [] ∧
    NEAREscrow.get_active_orders cexEscrow (some 1) (some 1) ≠
      get_active_orders_claimed cexEscrow (some 1) (some 1) := by
  refine ⟨rfl, rfl, ?_⟩
  intro h
  have h2 : ([cexOrderActive] : List SwapOrder) = [] :=
    calc ([cexOrderActive] : List SwapOrder)
        = NEAREscrow.get_active_orders cexEscrow (some 1) (some 1) := rfl
      _ = get_active_orders_claimed cexEscrow (some 1) (some 1) := h
      _ = [] := rfl
  exact List.cons_ne_nil _ _ h2

/-- C7 (amended): `get_active_orders(skip, take)` applies `skip` and
`take` to the full insertion-order value list — counting non-`Active`
entries too — and only then filters to persisted `Active`; consequently it
returns at most `take` orders, all with persisted state `Active`, as a
subsequence of the `Active` orders in creation order, and it applies no
timelock-based (derived-expiry) filtering. -/
theorem C7_get_active_orders_amended (c : NEAREscrow) (skip tk : Nat) :
    NEAREscrow.get_active_orders c (some skip) (some tk) =
      (((valuesA c.swap_orders).drop skip).take tk).filter
        (fun order => decide (order.state = HTLCState.Active)) ∧
    (NEAREscrow.get_active_orders c (some skip) (some tk)).length ≤ tk ∧
    (∀ o ∈ NEAREscrow.get_active_orders c (some skip) (some tk),
      o.state = HTLCState.Active) ∧
    (NEAREscrow.get_active_orders c (some skip) (some tk)).Sublist
      ((valuesA c.swap_orders).filter
        (fun order => decide (order.state = HTLCState.Active))) := by
  refine ⟨rfl, ?_, ?_, ?_⟩
  · calc (NEAREscrow.get_active_orders c (some skip) (some tk)).length
        ≤ (((valuesA c.swap_orders).drop skip).take tk).length :=
          List.length_filter_le _ _
      _ ≤ tk := List.length_take_le _ _
  · intro o hmem
    have := List.of_mem_filter hmem
    exact of_decide_eq_true this
  · exact List.Sublist.filter _
      ((List.take_sublist _ _).trans (List.drop_sublist _ _))

/-- Witness for C7 (amended) at the concrete `cexEscrow` with no skip:
the one `Active` order is returned and the bound holds. -/
theorem C7_get_active_orders_amended_witness :
    NEAREscrow.get_active_orders cexEscrow (some 0) (some 10) =
      (((valuesA cexEscrow.swap_orders).drop 0).take 10).filter
        (fun order => decide (order.state = HTLCState.Active)) ∧
    (NEAREscrow.get_active_orders cexEscrow (some 0) (some 10)).length ≤ 10 :=
  ⟨(C7_get_active_orders_amended cexEscrow 0 10).1,
   (C7_get_active_orders_amended cexEscrow 0 10).2.1⟩

/-! ### C8 -/

/-- `complete_htlc` neither reads nor writes the chain allowlist: its
result on a contract with any replaced allowlist is the same result with
the same replacement applied. -/
theorem complete_htlc_chains_independent (sha256 : List Nat → List Nat)
    (ctx : Ctx) (c : NEAREscrow) (sc2 : List (String × Bool))
    (oh secret : List Nat) :
    NEAREscrow.complete_htlc sha256 ctx { c with supported_chains := sc2 } oh secret =
      (NEAREscrow.complete_htlc sha256 ctx c oh secret).map
        (fun r => ({ r.1 with supported_chains := sc2 }, r.2)) := by
  unfold NEAREscrow.complete_htlc
  dsimp only
  cases ho : lookupA c.swap_orders oh with
  | none => rfl
  | some o =>
    dsimp only
    split_ifs
    all_goals try rfl
    all_goals (cases ha : lookupA c.deposits oh <;> rfl)

/-- `refund_htlc` neither reads nor writes the chain allowlist. -/
theorem refund_htlc_chains_independent (ctx : Ctx) (c : NEAREscrow)
    (sc2 : List (String × Bool)) (oh : List Nat) :
    NEAREscrow.refund_htlc ctx { c with supported_chains := sc2 } oh =
      (NEAREscrow.refund_htlc ctx c oh).map
        (fun r => ({ r.1 with supported_chains := sc2 }, r.2)) := by
  unfold NEAREscrow.refund_htlc
  dsimp only
  cases ho : lookupA c.swap_orders oh with
  | none => rfl
  | some o =>
    dsimp only
    split_ifs
    all_goals try rfl
    all_goals (cases ha : lookupA c.deposits oh <;> rfl)

/-- C8: `create_htlc` fails with the unsupported-chain error iff the
allowlist entry for `src_chain` is absent or `false`;
`remove_supported_chain` stores `false` under the key rather than deleting
it; and `complete_htlc`/`refund_htlc` never consult the allowlist, so
orders created under a later-disabled chain remain fully processable. -/
theorem C8_chain_gating (ctx : Ctx) (c : NEAREscrow) (oh secret hl : List Nat)
    (sm sc st : String) (sa : Nat) (dr dt : String) (tl : Nat)
    (sha256 : List Nat → List Nat) (chain : String)
    (sc2 : List (String × Bool)) :
    (NEAREscrow.create_htlc ctx c oh sm sc st sa dr dt hl tl =
        .error .unsupportedSourceChain ↔
      ¬ (lookupA c.supported_chains sc).getD false = true) ∧
    (ctx.predecessor = c.owner →
      ∃ c', NEAREscrow.remove_supported_chain ctx c chain = .ok (c', []) ∧
        lookupA c'.supported_chains chain = some false) ∧
    (NEAREscrow.complete_htlc sha256 ctx { c with supported_chains := sc2 } oh secret =
      (NEAREscrow.complete_htlc sha256 ctx c oh secret).map
        (fun r => ({ r.1 with supported_chains := sc2 }, r.2))) ∧
    (NEAREscrow.refund_htlc ctx { c with supported_chains := sc2 } oh =
      (NEAREscrow.refund_htlc ctx c oh).map
        (fun r => ({ r.1 with supported_chains := sc2 }, r.2))) := by
  refine ⟨?_, ?_, complete_htlc_chains_independent sha256 ctx c sc2 oh secret,
    refund_htlc_chains_independent ctx c sc2 oh⟩
  · unfold NEAREscrow.create_htlc
    by_cases hflag : (lookupA c.supported_chains sc).getD false = true
    · rw [if_neg (not_not_intro hflag)]
      simp only [hflag, not_true_eq_false, iff_false]
      split_ifs <;> simp
    · rw [if_pos hflag]
      simp [hflag]
  · intro hown
    refine ⟨{ c with supported_chains := insertA c.supported_chains chain false },
      ?_, lookupA_insertA_self _ _ _⟩
    unfold NEAREscrow.remove_supported_chain NEAREscrow.assert_owner
    rw [if_pos hown]

/-- Witness for C8: on `sampleEscrow` (owner `alice.near`), disabling
`"ethereum"` stores `false` for the key. -/
theorem C8_chain_gating_witness :
    ∃ c', NEAREscrow.remove_supported_chain ⟨0, "alice.near", 0⟩ sampleEscrow
        "ethereum" = .ok (c', []) ∧
      lookupA c'.supported_chains "ethereum" = some false :=
  (C8_chain_gating ⟨0, "alice.near", 0⟩ sampleEscrow [1] [9] sampleHashLock
    "m" "ethereum" "ETH" 7 "bob.near" "NEAR" 500 sampleSha "ethereum"
    []).2.1 (by decide)

/-! ### C9 -/

/-- Counterexample to C9 as stated: the caller equals the stored owner,
yet `update_timelock_limits(5, 3)` does not succeed — it aborts with the
invalid-limits error because `min < max` fails. -/
theorem C9_counterexample :
    (Ctx.mk 0 "alice.near" 0).predecessor = sampleEscrow.owner ∧
    NEAREscrow.update_timelock_limits (Ctx.mk 0 "alice.near" 0) sampleEscrow 5 3 =
      .error .invalidTimelockLimits :=
  ⟨rfl, rfl⟩

/-- C9 (amended): every admin operation fails with the authorization error
(and, by the abort semantics, no state change) whenever the caller is not
the stored owner; when the caller equals the stored owner,
`add_supported_chain`, `remove_supported_chain`, `emergency_withdraw` and
`transfer_ownership` always succeed, while `update_timelock_limits`
succeeds iff `min_timelock < max_timelock`. -/
theorem C9_admin_auth (ctx : Ctx) (c : NEAREscrow) (chain : String)
    (mn mx amount : Nat) (newOwner : String) :
    (¬ ctx.predecessor = c.owner →
      NEAREscrow.add_supported_chain ctx c chain = .error .onlyOwner ∧
      NEAREscrow.remove_supported_chain ctx c chain = .error .onlyOwner ∧
      NEAREscrow.update_timelock_limits ctx c mn mx = .error .onlyOwner ∧
      NEAREscrow.emergency_withdraw ctx c amount = .error .onlyOwner ∧
      NEAREscrow.transfer_ownership ctx c newOwner = .error .onlyOwner) ∧
    (ctx.predecessor = c.owner →
      (∃ r, NEAREscrow.add_supported_chain ctx c chain = .ok r) ∧
      (∃ r, NEAREscrow.remove_supported_chain ctx c chain = .ok r) ∧
      ((∃ r, NEAREscrow.update_timelock_limits ctx c mn mx = .ok r) ↔ mn < mx) ∧
      (∃ r, NEAREscrow.emergency_withdraw ctx c amount = .ok r) ∧
      (∃ r, NEAREscrow.transfer_ownership ctx c newOwner = .ok r)) := by
  constructor
  · intro hno
    refine ⟨?_, ?_, ?_, ?_, ?_⟩
    · unfold NEAREscrow.add_supported_chain NEAREscrow.assert_owner
      rw [if_neg hno]
    · unfold NEAREscrow.remove_supported_chain NEAREscrow.assert_owner
      rw [if_neg hno]
    · unfold NEAREscrow.update_timelock_limits NEAREscrow.assert_owner
      rw [if_neg hno]
    · unfold NEAREscrow.emergency_withdraw NEAREscrow.assert_owner
      rw [if_neg hno]
    · unfold NEAREscrow.transfer_ownership NEAREscrow.assert_owner
      rw [if_neg hno]
  · intro hown
    refine ⟨⟨({ c with supported_chains := insertA c.supported_chains chain true }, []), ?_⟩,
      ⟨({ c with supported_chains := insertA c.supported_chains chain false }, []), ?_⟩,
      ⟨?_, ?_⟩,
      ⟨(c, [(c.owner, amount)]), ?_⟩,
      ⟨({ c with owner := newOwner }, []), ?_⟩⟩
    · unfold NEAREscrow.add_supported_chain NEAREscrow.assert_owner
      rw [if_pos hown]
    · unfold NEAREscrow.remove_supported_chain NEAREscrow.assert_owner
      rw [if_pos hown]
    · rintro ⟨r, hr⟩
      exact (update_timelock_limits_ok hr).2.1
    · intro hlt
      refine ⟨({ c with min_timelock := mn, max_timelock := mx }, []), ?_⟩
      unfold NEAREscrow.update_timelock_limits NEAREscrow.assert_owner
      rw [if_pos hown]
      dsimp only
      rw [if_neg (not_not_intro hlt)]
    · unfold NEAREscrow.emergency_withdraw NEAREscrow.assert_owner
      rw [if_pos hown]
    · unfold NEAREscrow.transfer_ownership NEAREscrow.assert_owner
      rw [if_pos hown]

/-- Witness for C9 (amended): a non-owner call fails with the
authorization error and an owner call succeeds, on `sampleEscrow`. -/
theorem C9_admin_auth_witness :
    NEAREscrow.add_supported_chain (Ctx.mk 0 "mallory.near" 0) sampleEscrow
      "base" = .error .onlyOwner ∧
    (∃ r, NEAREscrow.transfer_ownership (Ctx.mk 0 "alice.near" 0) sampleEscrow
      "new.near" = .ok r) :=
  ⟨((C9_admin_auth (Ctx.mk 0 "mallory.near" 0) sampleEscrow "base" 1 2 3
      "new.near").1 (by decide)).1,
   ((C9_admin_auth (Ctx.mk 0 "alice.near" 0) sampleEscrow "base" 1 2 3
      "new.near").2 (by decide)).2.2.2.2⟩

/-! ### C10 -/

/-- C10: with omitted pagination parameters `get_active_orders` defaults
the start index to 0 and the limit to 10: a no-argument call equals the
call with `(some 0, some 10)`, scans from the beginning of the store, and
returns at most 10 orders. -/
theorem C10_default_pagination (c : NEAREscrow) :
    NEAREscrow.get_active_orders c none none =
      NEAREscrow.get_active_orders c (some 0) (some 10) ∧
    NEAREscrow.get_active_orders c none none =
      ((valuesA c.swap_orders).take 10).filter
        (fun order => decide (order.state = HTLCState.Active)) ∧
    (NEAREscrow.get_active_orders c none none).length ≤ 10 := by
  refine ⟨rfl, ?_, ?_⟩
  · unfold NEAREscrow.get_active_orders
    simp only [Option.getD_none]
    rw [List.drop_zero]
  · calc (NEAREscrow.get_active_orders c none none).length
        ≤ (((valuesA c.swap_orders).drop 0).take 10).length :=
          List.length_filter_le _ _
      _ ≤ 10 := List.length_take_le _ _
